import Mathlib

/-!
Shallow embedding of the Errata push-item source reconciliation pipeline
(from `pushsource/_impl/backend/errata_source/errata_source.py`): the data
model, the arch filter, RPM / module / container reconciliation, and the
FTP alternate-path merge, together with theorems settling the
specification claims.

Modelling conventions:
* Python dictionaries are association lists over `String` keys; `aget` is
  `dict.get`, `dset` is `dict.__setitem__` (update-or-append), `dpop` is
  `dict.pop(key, default)`, `dErase` removes a key.  Input dictionaries
  coming from real JSON payloads have unique keys.
* Python sets of strings are lists grown with `sadd` (insert if absent);
  only membership in them is ever consumed.
* Functions that can `raise ValueError` return `Except ErrataError _`;
  each `ErrataError` constructor corresponds to one raise site.
* The koji build-resolver is an external collaborator: it is passed in as
  a function from selector to the list of push items it yields.  Whether
  a function acquires it inside a `with` block (scoped, always closed) or
  bare (never explicitly closed) is recorded in an `Event` trace.
* `conv.archstr` (arch normalization) lives outside this file's source;
  it is taken as an opaque parameter `archstr : String → String`.
-/

namespace ErrataSpec

/-- Tag distinguishing the push-item classes that the source dispatches on
with `isinstance` (`RpmPushItem`, `ModuleMdSourcePushItem`,
`ContainerImagePushItem`, `OperatorManifestPushItem`, `ErratumPushItem`,
anything else). -/
inductive ItemType
  | erratum
  | rpm
  | modulemd
  | containerImage
  | operatorManifest
  | other
deriving DecidableEq, Repr

/-- Common push-item record: the fields of the various push-item classes
that `errata_source.py` reads or overwrites (`attr.evolve`). -/
structure PushItem where
  typ : ItemType
  name : String := ""
  build : String := ""
  src : String := ""
  dest : List String := []
  origin : String := ""
  sha256sum : Option String := none
  md5sum : Option String := none
  module_build : Option String := none
  dest_signing_key : Option String := none
  state : String := "PENDING"
deriving DecidableEq, Repr

/-- Acquire/close events on the koji source, used to model the
with-statement discipline. -/
inductive Event
  | acquire
  | close
deriving DecidableEq, Repr

/-- One constructor per `raise ValueError` site in the source. -/
inductive ErrataError
  | rpmNotFound (name : String)
  | missingModules (build_nvr : String) (missing : List String)
  | noContainerRepos (build : String)
  | multipleSigKeys (build : String) (keys : List String)
  | missingModulemdSources (builds : List String)
deriving DecidableEq, Repr

/-- Python `dict.get`: first entry with the given key. -/
def aget {β : Type} : List (String × β) → String → Option β
  | [], _ => none
  | p :: rest, k => if p.1 = k then some p.2 else aget rest k

/-- Python `dict.get(k) or default` for list-valued entries (both a missing
key and an empty value fall back to the default). -/
def agetD {β : Type} (d : List (String × β)) (k : String) (v : β) : β :=
  (aget d k).getD v

/-- Python `dict.get(k) or []`. -/
def agetL {β : Type} (d : List (String × List β)) (k : String) : List β :=
  agetD d k []

/-- Python `d[k] = v`: update the first entry with the key, else append. -/
def dset {β : Type} : List (String × β) → String → β → List (String × β)
  | [], k, v => [(k, v)]
  | p :: rest, k, v => if p.1 = k then (k, v) :: rest else p :: dset rest k v

/-- Remove the first entry with the given key. -/
def dErase {β : Type} : List (String × β) → String → List (String × β)
  | [], _ => []
  | p :: rest, k => if p.1 = k then rest else p :: dErase rest k

/-- Python `d.pop(k, default)`: value (or default) plus the dict with the
key removed. -/
def dpop {β : Type} (d : List (String × β)) (k : String) (v : β) :
    β × List (String × β) :=
  match aget d k with
  | some x => (x, dErase d k)
  | none => (v, d)

/-- Python `set.add` on a set modelled as a duplicate-free list. -/
def sadd (s : List String) (x : String) : List String :=
  if x ∈ s then s else s ++ [x]

/-- Python `sub in s` (substring containment), on the underlying
character lists. -/
def strContainsSubstr (s sub : String) : Bool :=
  (List.range (s.toList.length + 1)).any
    (fun i => sub.toList.isPrefixOf (s.toList.drop i))

/-- Split a character list at every occurrence of the separator (Python
`str.split(sep)` on a one-character separator: the empty string splits to
`[""]`, and adjacent separators yield empty components). -/
def splitCharList (sep : Char) : List Char → List (List Char)
  | [] => [[]]
  | c :: rest =>
    let r := splitCharList sep rest
    if c = sep then [] :: r
    else
      match r with
      | [] => [[c]]
      | h :: t => (c :: h) :: t

/-- Python `s.split(sep)` for a one-character separator. -/
def splitChar (sep : Char) (s : String) : List String :=
  (splitCharList sep s.toList).map String.mk

/-- Python `filename.split(".")`: the dot-separated components. -/
def splitDot (s : String) : List String :=
  splitChar '.' s

/-- Python `os.path.basename`: the part after the last slash. -/
def basename (s : String) : String :=
  (splitChar '/' s).getLastD ""

/-- `sorted(...)` on strings. -/
def ssorted (l : List String) : List String :=
  l.insertionSort (· ≤ ·)

/-- One build's entry in `advisory_cdn_file_list`: `rpms` maps RPM
filename to destination list, `modules` maps module filename to
destination list, `sig_key` is the signing-key hint, and the two checksum
maps come from `checksums.sha256` / `checksums.md5`.  Absent or empty
(falsy) sub-dicts are the empty list, mirroring `... or {}`. -/
structure BuildInfo where
  rpms : List (String × List String) := []
  modules : List (String × List String) := []
  sig_key : Option String := none
  sha256 : List (String × String) := []
  md5 : List (String × String) := []
deriving DecidableEq, Repr

/-- One repository's data inside a container target map: `tags` plus
`container_full_sig_key` (empty string models a missing or falsy key). -/
structure RepoData where
  tags : List String := []
  container_full_sig_key : String := ""
deriving DecidableEq, Repr

/-- The `docker.target` record of one container build in
`advisory_cdn_docker_file_list` (missing intermediate levels collapse to
the empty target, mirroring the chain of `... or {}`). -/
structure ContainerTarget where
  external_repos : List (String × RepoData) := []
  repos : List (String × RepoData) := []
deriving DecidableEq, Repr

/-- One build's entry in the `ftp_paths` response: RPM filename → path
list, plus the build's module path list. -/
structure FtpBuildMap where
  rpms : List (String × List String) := []
  modules : List String := []
deriving DecidableEq, Repr

/-- The raw advisory payload views consumed by the reconciliation engine
(the advisory metadata view is consumed only to build the erratum push
item, which is passed in directly). -/
structure RawAdvisoryPayload where
  advisory_cdn_file_list : List (String × BuildInfo) := []
  advisory_cdn_docker_file_list : List (String × ContainerTarget) := []
  ftp_paths : List (String × FtpBuildMap) := []
deriving DecidableEq, Repr

/-- `ErrataSource._filter_rpms_by_arch`: with no configured filter
(`rpm_filter_arch is None`) every filename passes through; otherwise a
filename is kept iff it has at least 3 dot-separated components, the last
component is `rpm`, and the normalized second-to-last component is among
the normalized configured arches. -/
def filter_rpms_by_arch (archstr : String → String)
    (rpm_filter_arch : Option (List String)) (rpm_filenames : List String) :
    List String :=
  match rpm_filter_arch with
  | none => rpm_filenames
  | some arches =>
    let ok_arches := arches.map archstr
    rpm_filenames.filter fun filename =>
      let components := splitDot filename
      decide (components.length ≥ 3) && (components.getLastD "" == "rpm")
        && decide (archstr (components.reverse.getD 1 "") ∈ ok_arches)

/-- The enrichment loop of `_rpm_push_items_from_build`: for each push
item yielded by the koji source, raise on a `NOTFOUND` state, else attach
checksums, destinations, origin, and the module-build heuristic (the
resolved build differs from the advisory's NVR and contains `.module`). -/
def rpm_enrich_loop (erratum_name build_nvr : String)
    (rpms : List (String × List String)) (sha256sums md5sums : List (String × String)) :
    List PushItem → Except ErrataError (List PushItem)
  | [] => .ok []
  | push_item :: rest =>
    if push_item.state = "NOTFOUND" then
      .error (.rpmNotFound push_item.name)
    else
      let module_build :=
        if push_item.build ≠ build_nvr ∧ strContainsSubstr push_item.build ".module" then
          some build_nvr
        else none
      let push_item :=
        { push_item with
          sha256sum := aget sha256sums push_item.name
          md5sum := aget md5sums push_item.name
          dest := agetL rpms push_item.name
          origin := erratum_name
          module_build := module_build }
      match rpm_enrich_loop erratum_name build_nvr rpms sha256sums md5sums rest with
      | .error e => .error e
      | .ok out => .ok (push_item :: out)

/-- `ErrataSource._rpm_push_items_from_build`.  The koji source is the
function `kojiRpm` from the (filtered filename list, signing key) selector
to the yielded push items.  The second component is the acquire/close
trace: the source is acquired bare, with no `with` block and no close
call on any path. -/
def rpm_push_items_from_build (archstr : String → String)
    (rpm_filter_arch : Option (List String))
    (kojiRpm : List String → Option String → List PushItem)
    (erratum_name build_nvr : String) (build_info : BuildInfo) :
    Except ErrataError (List PushItem) × List Event :=
  let rpms := build_info.rpms
  let signing_key := build_info.sig_key
  let sha256sums := build_info.sha256
  let md5sums := build_info.md5
  let rpm_filenames :=
    filter_rpms_by_arch archstr rpm_filter_arch (rpms.map Prod.fst)
  let items := kojiRpm rpm_filenames signing_key
  (rpm_enrich_loop erratum_name build_nvr rpms sha256sums md5sums items,
    [Event.acquire])

/-- The matching loop of `_module_push_items_from_build`: for each push
item yielded by the koji source, pop the basename of its `src` from the
(copied) declared-modules dict to obtain its destinations, and attach
origin.  Returns the enriched items and the dict of never-matched
modules. -/
def module_enrich_loop (erratum_name : String) :
    List PushItem → List (String × List String) →
    List PushItem × List (String × List String)
  | [], modules => ([], modules)
  | push_item :: rest, modules =>
    let popped := dpop modules (basename push_item.src) []
    let item := { push_item with dest := popped.1, origin := erratum_name }
    let next := module_enrich_loop erratum_name rest popped.2
    (item :: next.1, next.2)

/-- `ErrataSource._module_push_items_from_build`.  The koji source is
`kojiModule`, from the (module build, filename list) selector to the
yielded push items; it is opened in a `with` block, so the trace is
acquire-then-close on every path.  Any declared modules left unmatched
after the loop raise, naming the build and the sorted missing names. -/
def module_push_items_from_build
    (kojiModule : String → List String → List PushItem)
    (erratum_name build_nvr : String) (build_info : BuildInfo) :
    Except ErrataError (List PushItem) × List Event :=
  let modules := build_info.modules
  let module_filenames := modules.map Prod.fst ++ ["modulemd.src.txt"]
  let items := kojiModule build_nvr module_filenames
  let looped := module_enrich_loop erratum_name items modules
  let missing_modules := ssorted (looped.2.map Prod.fst)
  (if missing_modules ≠ [] then
      .error (.missingModules build_nvr missing_modules)
    else .ok looped.1,
    [Event.acquire, Event.close])

/-- `ErrataSource._push_items_from_rpms`: per build, the RPM items then
the module items, concatenated over the builds in order. -/
def push_items_from_rpms (archstr : String → String)
    (rpm_filter_arch : Option (List String))
    (kojiRpm : List String → Option String → List PushItem)
    (kojiModule : String → List String → List PushItem)
    (erratum_name : String) :
    List (String × BuildInfo) → Except ErrataError (List PushItem)
  | [] => .ok []
  | (build_nvr, build_info) :: rest => do
    let rpmItems ←
      (rpm_push_items_from_build archstr rpm_filter_arch kojiRpm
        erratum_name build_nvr build_info).1
    let modItems ←
      (module_push_items_from_build kojiModule erratum_name build_nvr
        build_info).1
    let restItems ←
      push_items_from_rpms archstr rpm_filter_arch kojiRpm kojiModule
        erratum_name rest
    .ok (rpmItems ++ modItems ++ restItems)

/-- One iteration of the table-building loop at the top of
`_add_ftp_paths`: fold one `ftp_paths` entry into the accumulated
`rpm_to_paths`, `build_to_module_paths` and `builds_need_modules`. -/
def ftp_tables_step
    (acc : List (String × List String) × List (String × List String) × List String)
    (p : String × FtpBuildMap) :
    List (String × List String) × List (String × List String) × List String :=
  (p.2.rpms.foldl (fun d q => dset d q.1 q.2) acc.1,
    dset acc.2.1 p.1 p.2.modules,
    if p.2.modules ≠ [] then sadd acc.2.2 p.1 else acc.2.2)

/-- The table-building loop at the top of `_add_ftp_paths`: from the
`ftp_paths` response, build `rpm_to_paths` (RPM filename → paths),
`build_to_module_paths` (build NVR → module paths) and the
`builds_need_modules` set (builds whose declared module path list is
non-empty). -/
def build_ftp_tables (ftp_paths : List (String × FtpBuildMap)) :
    List (String × List String) × List (String × List String) × List String :=
  ftp_paths.foldl ftp_tables_step ([], [], [])

/-- The per-item loop of `_add_ftp_paths`: RPM items get the matched
paths appended unconditionally; modulemd-source items get non-empty
matched paths appended (marking the build as "have") and are dropped when
their resulting destination list is empty; all other items pass through.
Returns the surviving items and the `builds_have_modules` set. -/
def add_ftp_paths_loop (rpm_to_paths build_to_module_paths : List (String × List String)) :
    List PushItem → List PushItem × List String
  | [] => ([], [])
  | item :: rest =>
    let next := add_ftp_paths_loop rpm_to_paths build_to_module_paths rest
    if item.typ = ItemType.rpm then
      let paths := agetL rpm_to_paths item.name
      ({ item with dest := item.dest ++ paths } :: next.1, next.2)
    else if item.typ = ItemType.modulemd then
      let paths := agetL build_to_module_paths item.build
      let step :
          PushItem × List String :=
        if paths ≠ [] then
          ({ item with dest := item.dest ++ paths }, sadd next.2 item.build)
        else (item, next.2)
      if step.1.dest ≠ [] then (step.1 :: next.1, step.2) else (next.1, step.2)
    else (item :: next.1, next.2)

/-- Truthiness of `(raw.advisory_cdn_file_list.get(nvr) or {}).get("modules")`:
the build is present in the manifest and declares a non-empty modules
dict. -/
def manifest_declares_modules (raw : RawAdvisoryPayload) (nvr : String) : Bool :=
  decide ((agetD raw.advisory_cdn_file_list nvr {}).modules ≠ [])

/-- The sorted "need but not have" builds of `_add_ftp_paths`:
`sorted(builds_need_modules - builds_have_modules)`. -/
def builds_missing_modules (items : List PushItem) (raw : RawAdvisoryPayload) :
    List String :=
  let tables := build_ftp_tables raw.ftp_paths
  let looped := add_ftp_paths_loop tables.1 tables.2.1 items
  ssorted (tables.2.2.filter (fun b => ¬ b ∈ looped.2))

/-- The fatal half of the "need but not have" builds: those for which the
cdn file list genuinely declares modules, so the modulemd source must be
missing from koji.  (The other half, declared only in `ftp_paths`, is
tolerated with a warning, which has no effect on the returned value.) -/
def builds_missing_koji (items : List PushItem) (raw : RawAdvisoryPayload) :
    List String :=
  (builds_missing_modules items raw).filter
    (fun nvr => manifest_declares_modules raw nvr)

/-- `ErrataSource._add_ftp_paths`: merge FTP paths into the RPM and
modulemd-source items, then split the sorted "need but not have" builds
into those the cdn manifest never declared modules for (tolerated with a
warning, no effect on the result) and those genuinely missing from koji
(fatal, naming those builds). -/
def add_ftp_paths (items : List PushItem) (raw : RawAdvisoryPayload) :
    Except ErrataError (List PushItem) :=
  if builds_missing_koji items raw ≠ [] then
    .error (.missingModulemdSources (builds_missing_koji items raw))
  else
    .ok (add_ftp_paths_loop (build_ftp_tables raw.ftp_paths).1
          (build_ftp_tables raw.ftp_paths).2.1 items).1

/-- The destination computation of `_enrich_container_push_item`: every
`repo_id:tag` string over the selected repository map, in declaration
order, before sorting/deduplication. -/
def container_dests_raw (repos : List (String × RepoData)) : List String :=
  repos.foldl (fun dest p => dest ++ p.2.tags.map (fun tag => p.1 ++ ":" ++ tag)) []

/-- The signing-key set of `_enrich_container_push_item`: every truthy
(non-empty) `container_full_sig_key` over the selected repository map,
collected as a set. -/
def container_sig_keys (repos : List (String × RepoData)) : List String :=
  repos.foldl
    (fun keys p =>
      if p.2.container_full_sig_key ≠ "" then sadd keys p.2.container_full_sig_key
      else keys)
    []

/-- The repository map a container build is enriched from: the build's
`docker.target.repos` when the legacy flag is set, else its
`docker.target.external_repos`. -/
def selectedRepos (legacy_container_repos : Bool)
    (docker_file_list : List (String × ContainerTarget)) (build : String) :
    List (String × RepoData) :=
  let target := agetD docker_file_list build {}
  if legacy_container_repos then target.repos else target.external_repos

/-- `ErrataSource._enrich_container_push_item`: select the repository map
(legacy `repos` vs `external_repos`), compute the sorted deduplicated
`repo:tag` destinations and the signing-key set, raise if there are no
destinations, raise if more than one distinct signing key is declared,
else return the item with destinations and signing key filled in. -/
def enrich_container_push_item (legacy_container_repos : Bool)
    (docker_file_list : List (String × ContainerTarget)) (item : PushItem) :
    Except ErrataError PushItem :=
  let repos := selectedRepos legacy_container_repos docker_file_list item.build
  let sig_keys := container_sig_keys repos
  let dest := ssorted (container_dests_raw repos).dedup
  if dest = [] then
    .error (.noContainerRepos item.build)
  else if sig_keys.length > 1 then
    .error (.multipleSigKeys item.build (ssorted sig_keys))
  else
    .ok { item with
          dest := dest
          dest_signing_key := sig_keys.head? }

/-- The per-item loop of `_push_items_from_container_manifests`:
container images are enriched (possibly raising), operator manifests are
accepted unchanged, anything else is ignored with a debug note; accepted
items get their origin set to the erratum name. -/
def container_loop (legacy_container_repos : Bool) (erratum_name : String)
    (docker_file_list : List (String × ContainerTarget)) :
    List PushItem → Except ErrataError (List PushItem)
  | [] => .ok []
  | item :: rest =>
    if item.typ = ItemType.containerImage then
      match enrich_container_push_item legacy_container_repos docker_file_list item with
      | .error e => .error e
      | .ok item =>
        match container_loop legacy_container_repos erratum_name docker_file_list rest with
        | .error e => .error e
        | .ok out => .ok ({ item with origin := erratum_name } :: out)
    else if item.typ = ItemType.operatorManifest then
      match container_loop legacy_container_repos erratum_name docker_file_list rest with
      | .error e => .error e
      | .ok out => .ok ({ item with origin := erratum_name } :: out)
    else
      container_loop legacy_container_repos erratum_name docker_file_list rest

/-- `ErrataSource._push_items_from_container_manifests`: nothing to do on
an empty (falsy) container file list; otherwise open a koji source over
the declared container builds (a `with` block) and run the loop.  The
second component is the acquire/close trace. -/
def push_items_from_container_manifests (legacy_container_repos : Bool)
    (kojiContainer : List String → List PushItem) (erratum_name : String)
    (docker_file_list : List (String × ContainerTarget)) :
    Except ErrataError (List PushItem) × List Event :=
  if docker_file_list = [] then (.ok [], [])
  else
    let items := kojiContainer (docker_file_list.map Prod.fst)
    (container_loop legacy_container_repos erratum_name docker_file_list items,
      [Event.acquire, Event.close])

/-- Source configuration consumed by the pipeline: the arch normalizer,
the optional arch filter and the legacy-container-repos flag. -/
structure Config where
  archstr : String → String
  rpm_filter_arch : Option (List String) := none
  legacy_container_repos : Bool := false

/-- The koji build-resolver collaborator, one function per selector
category used by the source. -/
structure Koji where
  rpm : List String → Option String → List PushItem := fun _ _ => []
  moduleSrc : String → List String → List PushItem := fun _ _ => []
  container : List String → List PushItem := fun _ => []

/-- The destination aggregation applied to the erratum item in
`_push_items_from_raw`: its destinations become the sorted set union of
its own destinations and those of every RPM/module item, before the FTP
paths are added. -/
def aggregated_erratum (erratum0 : PushItem) (items : List PushItem) : PushItem :=
  { erratum0 with
    dest := ssorted ((erratum0.dest ++ (items.map PushItem.dest).flatten).dedup) }

/-- `ErrataSource._push_items_from_raw` for one advisory: RPM and module
reconciliation across all builds, aggregation of their destinations into
the erratum item, the FTP alternate-path merge, then container
reconciliation; the result is the erratum followed by the other items. -/
def push_items_from_raw (cfg : Config) (koji : Koji) (erratum0 : PushItem)
    (raw : RawAdvisoryPayload) : Except ErrataError (List PushItem) :=
  match push_items_from_rpms cfg.archstr cfg.rpm_filter_arch koji.rpm
      koji.moduleSrc erratum0.name raw.advisory_cdn_file_list with
  | .error e => .error e
  | .ok items =>
    match add_ftp_paths items raw with
    | .error e => .error e
    | .ok items2 =>
      match (push_items_from_container_manifests cfg.legacy_container_repos
          koji.container (aggregated_erratum erratum0 items).name
          raw.advisory_cdn_docker_file_list).1 with
      | .error e => .error e
      | .ok citems =>
        .ok (aggregated_erratum erratum0 items :: (items2 ++ citems))

/-! ### Heap model of `_module_push_items_from_build`

Python dictionaries are mutable heap objects: `build_info["modules"]` is a
reference into the raw advisory payload, and `dict.pop` mutates in place.
To state the frame property of the `.copy()` on line
`modules = (build_info.get("modules") or {}).copy()`, the function is also
embedded with an explicit store of dict objects: references are indices
into the store, `.copy()` allocates a fresh object at the end of the
store, and `pop` writes back through the reference it is applied to. -/

/-- A module dict object on the heap. -/
abbrev ModulesDict := List (String × List String)

/-- The heap: dict objects addressed by index. -/
abbrev Store := List ModulesDict

/-- Dereference (an out-of-range reference reads as the empty dict). -/
def storeGet (st : Store) (r : Nat) : ModulesDict :=
  st.getD r []

/-- In-place update through a reference. -/
def storeSet (st : Store) (r : Nat) (d : ModulesDict) : Store :=
  st.set r d

/-- `dict.copy()`: allocate a fresh object holding the given value. -/
def storeAlloc (st : Store) (d : ModulesDict) : Nat × Store :=
  (st.length, st ++ [d])

/-- The matching loop of `_module_push_items_from_build`, mutating the
dict behind reference `r` with each `modules.pop(basename, [])`. -/
def module_enrich_loop_heap (erratum_name : String) (r : Nat) :
    List PushItem → Store → List PushItem × Store
  | [], st => ([], st)
  | push_item :: rest, st =>
    let m := storeGet st r
    let popped := dpop m (basename push_item.src) []
    let st := storeSet st r popped.2
    let item := { push_item with dest := popped.1, origin := erratum_name }
    let next := module_enrich_loop_heap erratum_name r rest st
    (item :: next.1, next.2)

/-- `ErrataSource._module_push_items_from_build` over the heap model:
`modulesRef` is the reference to the advisory payload's declared
module-to-destinations dict for this build; the function copies it,
pops matched filenames from the copy, and raises on leftovers. -/
def module_push_items_from_build_heap
    (kojiModule : String → List String → List PushItem)
    (erratum_name build_nvr : String) (modulesRef : Nat) (st : Store) :
    Except ErrataError (List PushItem) × Store :=
  let alloc := storeAlloc st (storeGet st modulesRef)
  let r := alloc.1
  let st := alloc.2
  let module_filenames := (storeGet st r).map Prod.fst ++ ["modulemd.src.txt"]
  let items := kojiModule build_nvr module_filenames
  let looped := module_enrich_loop_heap erratum_name r items st
  let missing_modules := ssorted ((storeGet looped.2 r).map Prod.fst)
  (if missing_modules ≠ [] then
      .error (.missingModules build_nvr missing_modules)
    else .ok looped.1,
    looped.2)

/-- A build's module source was matched during the alternate-path merge:
some modulemd-source push item of that build went through the merge and
the build-to-module-paths table held a non-empty path list for it.  This
is the membership condition of the `builds_have_modules` set, stated
independently of the merge loop. -/
def moduleMatched (items : List PushItem) (btm : List (String × List String))
    (b : String) : Bool :=
  items.any fun item =>
    item.typ == ItemType.modulemd && item.build == b && !(agetL btm b).isEmpty

/-! ### Concrete fixtures used to instantiate theorems -/

/-- An RPM push item resolved from a module build (its NVR contains
`.module`). -/
def rpmFromModuleBuild : PushItem :=
  { typ := ItemType.rpm, name := "pg.x86_64.rpm",
    build := "pg-1.0-4.module+el8", state := "OK" }

/-- The enrichment of `rpmFromModuleBuild` against declared NVR
`mod-1.0-1` with destinations `["d1"]`. -/
def rpmFromModuleBuildOut : PushItem :=
  { rpmFromModuleBuild with
    dest := ["d1"], origin := "RHSA-1", module_build := some "mod-1.0-1" }

/-- A container file list whose single build declares two repositories
with tags and two distinct non-empty signing keys. -/
def twoKeyDfl : List (String × ContainerTarget) :=
  [("cb1",
    { external_repos :=
        [("r1", { tags := ["1.0"], container_full_sig_key := "k1" }),
         ("r2", { tags := ["2.0"], container_full_sig_key := "k2" })] })]

/-- A container file list whose single build declares one repository with
one tag and one signing key. -/
def oneKeyDfl : List (String × ContainerTarget) :=
  [("cb1",
    { external_repos :=
        [("ns/img",
          { tags := ["1.0"], container_full_sig_key := "deadbeef" })] })]

/-- A container-image push item as yielded by koji for build `cb1`. -/
def containerItemC : PushItem :=
  { typ := ItemType.containerImage, name := "img", build := "cb1" }

/-- The enrichment of `containerItemC` against `oneKeyDfl`. -/
def containerEnrichedC : PushItem :=
  { containerItemC with
    dest := ["ns/img:1.0"], dest_signing_key := some "deadbeef" }

/-- An RPM push item entering the alternate-path merge. -/
def rpmItemC : PushItem :=
  { typ := ItemType.rpm, name := "a.b.rpm", build := "b1", dest := ["d0"],
    origin := "RHSA-1", state := "OK" }

/-- An `ftp_paths` payload matching `rpmItemC` by filename. -/
def ftpRpmRaw : RawAdvisoryPayload :=
  { ftp_paths := [("b1", { rpms := [("a.b.rpm", ["/p1"])] })] }

/-- A modulemd-source push item entering the alternate-path merge. -/
def modItemC : PushItem :=
  { typ := ItemType.modulemd, name := "mymod", build := "b1", src := "mymod",
    dest := ["d1"], origin := "RHSA-1" }

/-- An `ftp_paths` payload declaring module paths for build `b1`. -/
def ftpModRaw : RawAdvisoryPayload :=
  { ftp_paths := [("b1", { modules := ["/m1"] })] }

/-- A payload declaring modules for `b1` both in the cdn file list and in
`ftp_paths` (used with no matching module item: the fatal case of the
alternate-path merge). -/
def ftpKojiMissingRaw : RawAdvisoryPayload :=
  { advisory_cdn_file_list := [("b1", { modules := [("m", ["d"])] })],
    ftp_paths := [("b1", { modules := ["/p1"] })] }

/-- A koji collaborator yielding one modulemd source for build `b1`. -/
def c4Koji : Koji :=
  { moduleSrc := fun _ _ =>
      [{ typ := ItemType.modulemd, name := "mymod", build := "b1",
         src := "mymod" }] }

/-- A payload declaring one module with one destination for build `b1`. -/
def c4Raw : RawAdvisoryPayload :=
  { advisory_cdn_file_list := [("b1", { modules := [("mymod", ["d1"])] })] }

/-- The erratum item of the `c4Raw` advisory. -/
def c4Erratum : PushItem :=
  { typ := ItemType.erratum, name := "RHSA-1" }

/-- The modulemd source as it appears in the final output for `c4Raw`. -/
def c4OutMod : PushItem :=
  { typ := ItemType.modulemd, name := "mymod", build := "b1", src := "mymod",
    dest := ["d1"], origin := "RHSA-1" }

end ErrataSpec

deriving instance DecidableEq for Except

namespace ErrataSpec

/-! ## Shared lemmas -/

/-- Sorting returns the empty list only on the empty list. -/
theorem ssorted_eq_nil_iff (l : List String) : ssorted l = [] ↔ l = [] := by
  constructor
  · intro h
    have hp := List.perm_insertionSort (α := String) (· ≤ ·) l
    rw [ssorted] at h
    rw [h] at hp
    exact hp.symm.eq_nil
  · intro h
    simp [h, ssorted, List.insertionSort]

/-- Membership is preserved by sorting. -/
theorem mem_ssorted_iff (l : List String) (b : String) : b ∈ ssorted l ↔ b ∈ l :=
  (List.perm_insertionSort (α := String) (· ≤ ·) l).mem_iff

/-- Membership in a Python-style set insertion. -/
theorem mem_sadd (s : List String) (x b : String) : b ∈ sadd s x ↔ b ∈ s ∨ b = x := by
  unfold sadd
  split_ifs with h
  · constructor
    · exact Or.inl
    · rintro (hb | rfl)
      · exact hb
      · exact h
  · simp [List.mem_append]

/-! ## C3: the arch filter on malformed filenames -/

/-- Claim C3, counterexample: with no arch filter configured
(`rpm_filter_arch is None`) the filter passes every filename through, so
a name with a single dot-free component (neither ending in `rpm` nor
having three components) still appears in the output. -/
theorem arch_filter_no_config_counterexample :
    "foo" ∈ filter_rpms_by_arch id none ["foo"]
      ∧ (splitDot "foo").length < 3
      ∧ (splitDot "foo").getLastD "" ≠ "rpm" := by decide

/-- Claim C3 (amended): whenever an arch filter is configured (any list
of architectures, even the empty one), every filename whose last
dot-separated component is not `rpm`, or which has fewer than 3
dot-separated components, is excluded from the filter's output; with no
filter configured the filenames pass through unfiltered. -/
theorem arch_filter_excludes_non_rpm (archstr : String → String)
    (arches : List String) (filename : String) (files : List String)
    (h : (splitDot filename).getLastD "" ≠ "rpm" ∨ (splitDot filename).length < 3) :
    filename ∉ filter_rpms_by_arch archstr (some arches) files := by
  intro hmem
  unfold filter_rpms_by_arch at hmem
  rw [List.mem_filter] at hmem
  obtain ⟨-, hp⟩ := hmem
  simp only [Bool.and_eq_true, decide_eq_true_eq, beq_iff_eq] at hp
  rcases h with h | h
  · exact h hp.1.2
  · omega

/-- Witness for `arch_filter_excludes_non_rpm` at a concrete input. -/
theorem arch_filter_excludes_non_rpm_witness :
    "foo.txt" ∉ filter_rpms_by_arch id (some ["x86_64"]) ["foo.txt", "a.b.rpm"] :=
  arch_filter_excludes_non_rpm id ["x86_64"] "foo.txt" ["foo.txt", "a.b.rpm"]
    (by decide)

/-! ## C1: the module-build heuristic -/

/-- Claim C1, counterexample: the resolved build `foomodule-1.0-1`
differs from the advisory's declared NVR `bar-1.0-1` and contains the
substring `module`, yet the produced push item's module-build reference
is left unset, because the code actually scans for the substring
`.module` (with the leading dot). -/
theorem module_build_substring_counterexample :
    (rpm_push_items_from_build id none
        (fun _ _ => [{ typ := ItemType.rpm, name := "foomodule-1.0-1.x86_64.rpm",
                       build := "foomodule-1.0-1", state := "OK" }])
        "RHSA-1" "bar-1.0-1"
        { rpms := [("foomodule-1.0-1.x86_64.rpm", ["d1"])] }).1
      = .ok [{ typ := ItemType.rpm, name := "foomodule-1.0-1.x86_64.rpm",
               build := "foomodule-1.0-1", state := "OK", dest := ["d1"],
               origin := "RHSA-1", module_build := none }]
    ∧ strContainsSubstr "foomodule-1.0-1" "module" = true
    ∧ "foomodule-1.0-1" ≠ "bar-1.0-1" := by decide

/-- Every item produced by the RPM enrichment loop carries the
module-build reference dictated by the `.module` heuristic. -/
theorem rpm_enrich_loop_module_build (e b : String)
    (rpms : List (String × List String)) (s256 smd5 : List (String × String)) :
    ∀ (kitems out : List PushItem),
      rpm_enrich_loop e b rpms s256 smd5 kitems = .ok out →
      ∀ item ∈ out,
        item.module_build =
          if item.build ≠ b ∧ strContainsSubstr item.build ".module" then some b
          else none := by
  intro kitems
  induction kitems with
  | nil =>
    intro out h item hm
    rw [rpm_enrich_loop] at h
    cases h
    cases hm
  | cons pi rest ih =>
    intro out h item hm
    by_cases hs : pi.state = "NOTFOUND"
    · rw [rpm_enrich_loop, if_pos hs] at h
      cases h
    · rw [rpm_enrich_loop, if_neg hs] at h
      cases hrec : rpm_enrich_loop e b rpms s256 smd5 rest with
      | error e' =>
        simp only [hrec] at h
        cases h
      | ok out' =>
        simp only [hrec] at h
        cases h
        rcases List.mem_cons.mp hm with hm | hm
        · subst hm
          simp
        · exact ih out' hrec item hm

/-- Claim C1 (amended): for every RPM push item produced by RPM
reconciliation of one build, the module-build reference is set to the
advisory's declared build NVR exactly when the item's resolved build NVR
differs from the declared NVR and contains the substring `.module` (with
the leading dot); otherwise it is left unset. -/
theorem rpm_module_build_iff_dot_module (archstr : String → String)
    (rpm_filter_arch : Option (List String))
    (kojiRpm : List String → Option String → List PushItem)
    (e b : String) (bi : BuildInfo) (out : List PushItem)
    (h : (rpm_push_items_from_build archstr rpm_filter_arch kojiRpm e b bi).1 = .ok out)
    (item : PushItem) (hm : item ∈ out) :
    item.module_build =
      if item.build ≠ b ∧ strContainsSubstr item.build ".module" then some b
      else none := by
  unfold rpm_push_items_from_build at h
  exact rpm_enrich_loop_module_build e b _ _ _ _ out h item hm

/-- Witness for `rpm_module_build_iff_dot_module` at a concrete input
(the resolved build contains `.module` and differs from the declared
NVR, so the reference is filled in). -/
theorem rpm_module_build_iff_dot_module_witness :
    rpmFromModuleBuildOut.module_build = some "mod-1.0-1" := by
  have h :=
    rpm_module_build_iff_dot_module id none (fun _ _ => [rpmFromModuleBuild])
      "RHSA-1" "mod-1.0-1" { rpms := [("pg.x86_64.rpm", ["d1"])] }
      [rpmFromModuleBuildOut] (by decide) rpmFromModuleBuildOut (by decide)
  exact h.trans (by decide)

/-! ## C2: the koji source acquired for RPM resolution is never closed -/

/-- Claim C2: `_rpm_push_items_from_build` acquires its koji source with
a bare call, not a `with` block, so no close event ever occurs on any
path — in particular not when a NOTFOUND RPM raises mid-iteration — while
`_module_push_items_from_build` (a `with` block) closes on every path.
The last conjunct evaluates the failing input: a NOTFOUND RPM raises
while the trace still shows the source acquired and never closed. -/
theorem rpm_koji_source_never_closed :
    (∀ (archstr : String → String) (fa : Option (List String))
        (kojiRpm : List String → Option String → List PushItem)
        (e b : String) (bi : BuildInfo),
        (rpm_push_items_from_build archstr fa kojiRpm e b bi).2 = [Event.acquire])
    ∧ (∀ (kojiModule : String → List String → List PushItem)
        (e b : String) (bi : BuildInfo),
        (module_push_items_from_build kojiModule e b bi).2
          = [Event.acquire, Event.close])
    ∧ ((rpm_push_items_from_build id none
          (fun _ _ => [{ typ := ItemType.rpm, name := "gone-1.0-1.x86_64.rpm",
                         state := "NOTFOUND" }])
          "RHSA-1" "b1" { rpms := [("gone-1.0-1.x86_64.rpm", ["d1"])] }).1
          = .error (.rpmNotFound "gone-1.0-1.x86_64.rpm")
        ∧ Event.close ∉
            (rpm_push_items_from_build id none
              (fun _ _ => [{ typ := ItemType.rpm, name := "gone-1.0-1.x86_64.rpm",
                             state := "NOTFOUND" }])
              "RHSA-1" "b1" { rpms := [("gone-1.0-1.x86_64.rpm", ["d1"])] }).2) :=
  ⟨fun _ _ _ _ _ _ => rfl, fun _ _ _ _ => rfl, by decide, by decide⟩

/-! ## C10: module reconciliation does not mutate the raw payload -/

/-- Writing through one reference leaves every other reference's value
unchanged. -/
theorem storeGet_storeSet_ne (st : Store) (r q : Nat) (d : ModulesDict)
    (h : q ≠ r) : storeGet (storeSet st r d) q = storeGet st q := by
  unfold storeGet storeSet
  rw [List.getD_eq_getElem?_getD, List.getD_eq_getElem?_getD,
    List.getElem?_set_ne (Ne.symm h)]

/-- Allocation at the end of the store leaves in-range references'
values unchanged. -/
theorem storeGet_append_lt (st : Store) (d : ModulesDict) (q : Nat)
    (h : q < st.length) : storeGet (st ++ [d]) q = storeGet st q := by
  unfold storeGet
  rw [List.getD_eq_getElem?_getD, List.getD_eq_getElem?_getD,
    List.getElem?_append, if_pos h]

/-- The heap matching loop only writes through the reference to the
copied dict: every other reference's value is preserved. -/
theorem module_enrich_loop_heap_frame (e : String) (r : Nat) :
    ∀ (items : List PushItem) (st : Store) (q : Nat), q ≠ r →
      storeGet (module_enrich_loop_heap e r items st).2 q = storeGet st q := by
  intro items
  induction items with
  | nil =>
    intro st q h
    rfl
  | cons pi rest ih =>
    intro st q h
    simp only [module_enrich_loop_heap]
    rw [ih _ q h, storeGet_storeSet_ne _ _ _ _ h]

/-- Claim C10: module reconciliation of one build never mutates the raw
advisory payload — the declared module-to-destinations dict behind any
valid reference into the store holds the same value before and after,
because matched filenames are popped from a freshly allocated copy. -/
theorem module_reconciliation_preserves_input
    (kojiModule : String → List String → List PushItem) (e b : String)
    (modulesRef : Nat) (st : Store) (h : modulesRef < st.length) :
    storeGet
        (module_push_items_from_build_heap kojiModule e b modulesRef st).2
        modulesRef
      = storeGet st modulesRef := by
  unfold module_push_items_from_build_heap storeAlloc
  simp only
  rw [module_enrich_loop_heap_frame e st.length _ _ modulesRef (Nat.ne_of_lt h)]
  exact storeGet_append_lt st _ modulesRef h

/-- Witness for `module_reconciliation_preserves_input` at a concrete
store: the input dict at reference 0 still holds its entry after a
matching run that pops it from the copy. -/
theorem module_reconciliation_preserves_input_witness :
    storeGet
        (module_push_items_from_build_heap
          (fun _ _ => [{ typ := ItemType.modulemd, name := "mymod",
                         build := "b1", src := "mymod" }])
          "RHSA-1" "b1" 0 [[("mymod", ["d1"])]]).2 0
      = storeGet [[("mymod", ["d1"])]] 0 :=
  module_reconciliation_preserves_input _ "RHSA-1" "b1" 0 _ (by decide)

/-! ## C8: multiple distinct signing keys on one container build -/

/-- Claim C8, counterexample: a container build whose two repositories
declare two distinct non-empty signing keys but no tags fails with the
no-repositories error (the `MissingArtifact` kind), not the
multiple-signing-keys `ConfigError`, because the empty-destination check
runs first. -/
theorem multi_sig_keys_empty_dest_counterexample :
    2 ≤ (container_sig_keys
          [("r1", { tags := [], container_full_sig_key := "k1" }),
           ("r2", { tags := [], container_full_sig_key := "k2" })]).length
    ∧ enrich_container_push_item false
        [("cb1",
          { external_repos :=
              [("r1", { tags := [], container_full_sig_key := "k1" }),
               ("r2", { tags := [], container_full_sig_key := "k2" })] })]
        { typ := ItemType.containerImage, name := "img", build := "cb1" }
      = .error (.noContainerRepos "cb1") := by decide

/-- Claim C8 (amended): for every container build whose selected
repository map declares at least one `repo:tag` destination and two or
more distinct non-empty signing keys, container enrichment fails with the
multiple-signing-keys `ConfigError`, naming the build and the sorted
keys.  (When the destination set is empty, the no-repositories error
takes precedence.) -/
theorem multi_sig_keys_config_error (legacy : Bool)
    (dfl : List (String × ContainerTarget)) (item : PushItem)
    (hdest : container_dests_raw (selectedRepos legacy dfl item.build) ≠ [])
    (hkeys : 1 < (container_sig_keys (selectedRepos legacy dfl item.build)).length) :
    enrich_container_push_item legacy dfl item
      = .error (.multipleSigKeys item.build
          (ssorted (container_sig_keys (selectedRepos legacy dfl item.build)))) := by
  have hd : ssorted (container_dests_raw
      (selectedRepos legacy dfl item.build)).dedup ≠ [] := by
    intro hnil
    exact hdest ((List.dedup_eq_nil _).mp ((ssorted_eq_nil_iff _).mp hnil))
  simp only [enrich_container_push_item]
  rw [if_neg hd, if_pos hkeys]

/-- Witness for `multi_sig_keys_config_error` on a build with two tagged
repositories and two distinct keys. -/
theorem multi_sig_keys_config_error_witness :
    enrich_container_push_item false twoKeyDfl containerItemC
      = .error (.multipleSigKeys containerItemC.build
          (ssorted (container_sig_keys
            (selectedRepos false twoKeyDfl containerItemC.build)))) :=
  multi_sig_keys_config_error false twoKeyDfl containerItemC (by decide) (by decide)

/-! ## C9: empty container destinations vs sorted deduplicated output -/

/-- Claim C9: when the selected repository map of a container build
yields no `repo:tag` destination at all, enrichment fails with the
no-repositories (`MissingArtifact`) error; and whenever enrichment
produces an item, that item's destinations are exactly the sorted,
deduplicated `repo:tag` strings of the selected repository map. -/
theorem container_dest_empty_or_sorted (legacy : Bool)
    (dfl : List (String × ContainerTarget)) (item : PushItem) :
    (container_dests_raw (selectedRepos legacy dfl item.build) = [] →
      enrich_container_push_item legacy dfl item
        = .error (.noContainerRepos item.build))
    ∧ (∀ item' : PushItem,
        enrich_container_push_item legacy dfl item = .ok item' →
          item'.dest
              = ssorted (container_dests_raw
                  (selectedRepos legacy dfl item.build)).dedup
            ∧ item'.dest.Sorted (· ≤ ·) ∧ item'.dest.Nodup) := by
  constructor
  · intro h0
    have hnil : ssorted (container_dests_raw
        (selectedRepos legacy dfl item.build)).dedup = [] := by
      rw [h0]
      rfl
    simp only [enrich_container_push_item]
    rw [if_pos hnil]
  · intro item' h
    simp only [enrich_container_push_item] at h
    split at h
    · cases h
    · split at h
      · cases h
      · cases h
        refine ⟨rfl, List.sorted_insertionSort _ _, ?_⟩
        exact (List.perm_insertionSort _ _).nodup_iff.mpr (List.nodup_dedup _)

/-- Witness for `container_dest_empty_or_sorted` on a build with one
tagged repository and one key. -/
theorem container_dest_empty_or_sorted_witness :
    containerEnrichedC.dest
        = ssorted (container_dests_raw
            (selectedRepos false oneKeyDfl containerItemC.build)).dedup
      ∧ containerEnrichedC.dest.Sorted (· ≤ ·) ∧ containerEnrichedC.dest.Nodup :=
  (container_dest_empty_or_sorted false oneKeyDfl containerItemC).2
    containerEnrichedC (by decide)

/-! ## C6: the alternate-path merge is purely additive for RPMs -/

/-- The merge loop sends each RPM item to the same item with the matched
paths appended to its destinations. -/
theorem add_ftp_paths_loop_rpm (rtp btm : List (String × List String)) :
    ∀ (items : List PushItem) (item : PushItem), item ∈ items →
      item.typ = ItemType.rpm →
      { item with dest := item.dest ++ agetL rtp item.name }
        ∈ (add_ftp_paths_loop rtp btm items).1 := by
  intro items
  induction items with
  | nil =>
    intro item hm
    cases hm
  | cons hd rest ih =>
    intro item hm ht
    simp only [add_ftp_paths_loop]
    rcases List.mem_cons.mp hm with rfl | hm
    · rw [if_pos ht]
      exact List.mem_cons_self _ _
    · have hmem := ih item hm ht
      split_ifs <;>
        first
          | exact hmem
          | exact List.mem_cons_of_mem _ hmem

/-- Claim C6: for every RPM push item passing through the alternate-path
merge, the output contains the item with destination list equal to the
original destinations followed by the matched alt-path list (so the
length is the sum of both), with no deduplication, even when the matched
list is empty. -/
theorem ftp_paths_rpm_additive (items : List PushItem)
    (raw : RawAdvisoryPayload) (out : List PushItem)
    (hok : add_ftp_paths items raw = .ok out)
    (item : PushItem) (hm : item ∈ items) (ht : item.typ = ItemType.rpm) :
    ∃ item' ∈ out,
      item'.dest = item.dest ++ agetL (build_ftp_tables raw.ftp_paths).1 item.name
      ∧ item'.dest.length
          = item.dest.length
            + (agetL (build_ftp_tables raw.ftp_paths).1 item.name).length := by
  unfold add_ftp_paths at hok
  split at hok
  · cases hok
  · cases hok
    refine ⟨_, add_ftp_paths_loop_rpm _ _ items item hm ht, rfl, ?_⟩
    simp

/-- Witness for `ftp_paths_rpm_additive`: one matched path is appended
after the original destination. -/
theorem ftp_paths_rpm_additive_witness :
    ∃ item' ∈ [{ rpmItemC with dest := ["d0", "/p1"] }],
      item'.dest = rpmItemC.dest
          ++ agetL (build_ftp_tables ftpRpmRaw.ftp_paths).1 rpmItemC.name
      ∧ item'.dest.length
          = rpmItemC.dest.length
            + (agetL (build_ftp_tables ftpRpmRaw.ftp_paths).1 rpmItemC.name).length :=
  ftp_paths_rpm_additive [rpmItemC] ftpRpmRaw
    [{ rpmItemC with dest := ["d0", "/p1"] }] (by decide) rpmItemC
    (by decide) (by decide)

/-! ## C7: modulemd sources after the alternate-path merge -/

/-- Every modulemd-source item surviving the merge loop has non-empty
destinations, and is one of the input items with its original
destinations followed by its matched alt-paths. -/
theorem add_ftp_paths_loop_modulemd (rtp btm : List (String × List String)) :
    ∀ (items : List PushItem) (item' : PushItem),
      item' ∈ (add_ftp_paths_loop rtp btm items).1 →
      item'.typ = ItemType.modulemd →
      item'.dest ≠ []
      ∧ ∃ item ∈ items, item.typ = ItemType.modulemd
          ∧ item' = { item with dest := item.dest ++ agetL btm item.build } := by
  intro items
  induction items with
  | nil =>
    intro item' hm
    cases hm
  | cons hd rest ih =>
    intro item' hm ht
    simp only [add_ftp_paths_loop] at hm
    by_cases h1 : hd.typ = ItemType.rpm
    · rw [if_pos h1] at hm
      rcases List.mem_cons.mp hm with rfl | hm
      · rw [h1] at ht
        cases ht
      · obtain ⟨hne, it, hit, hty, heq⟩ := ih item' hm ht
        exact ⟨hne, it, List.mem_cons_of_mem _ hit, hty, heq⟩
    · rw [if_neg h1] at hm
      by_cases h2 : hd.typ = ItemType.modulemd
      · rw [if_pos h2] at hm
        by_cases h3 : agetL btm hd.build ≠ []
        · rw [if_pos h3] at hm
          split at hm
          · rcases List.mem_cons.mp hm with rfl | hm
            · rename_i h4
              refine ⟨h4, hd, List.mem_cons_self _ _, h2, rfl⟩
            · obtain ⟨hne, it, hit, hty, heq⟩ := ih item' hm ht
              exact ⟨hne, it, List.mem_cons_of_mem _ hit, hty, heq⟩
          · obtain ⟨hne, it, hit, hty, heq⟩ := ih item' hm ht
            exact ⟨hne, it, List.mem_cons_of_mem _ hit, hty, heq⟩
        · rw [if_neg h3] at hm
          have h3' : agetL btm hd.build = [] := not_not.mp h3
          split at hm
          · rcases List.mem_cons.mp hm with rfl | hm
            · rename_i h4
              refine ⟨h4, item', List.mem_cons_self _ _, h2, ?_⟩
              rw [h3', List.append_nil]
            · obtain ⟨hne, it, hit, hty, heq⟩ := ih item' hm ht
              exact ⟨hne, it, List.mem_cons_of_mem _ hit, hty, heq⟩
          · obtain ⟨hne, it, hit, hty, heq⟩ := ih item' hm ht
            exact ⟨hne, it, List.mem_cons_of_mem _ hit, hty, heq⟩
      · rw [if_neg h2] at hm
        rcases List.mem_cons.mp hm with rfl | hm
        · exact absurd ht h2
        · obtain ⟨hne, it, hit, hty, heq⟩ := ih item' hm ht
          exact ⟨hne, it, List.mem_cons_of_mem _ hit, hty, heq⟩

/-- Claim C7: after the alternate-path merge no modulemd-source item has
an empty destination set, and every modulemd-source item in the output is
an input item with all of its original destinations followed by its
matched alt-paths. -/
theorem ftp_paths_modulemd_retained (items : List PushItem)
    (raw : RawAdvisoryPayload) (out : List PushItem)
    (hok : add_ftp_paths items raw = .ok out)
    (item' : PushItem) (hm : item' ∈ out)
    (ht : item'.typ = ItemType.modulemd) :
    item'.dest ≠ []
    ∧ ∃ item ∈ items, item.typ = ItemType.modulemd
        ∧ item' = { item with
            dest := item.dest
              ++ agetL (build_ftp_tables raw.ftp_paths).2.1 item.build } := by
  unfold add_ftp_paths at hok
  split at hok
  · cases hok
  · cases hok
    exact add_ftp_paths_loop_modulemd _ _ items item' hm ht

/-- Witness for `ftp_paths_modulemd_retained`: the surviving modulemd
source keeps `d1` and gains the matched path. -/
theorem ftp_paths_modulemd_retained_witness :
    ({ modItemC with dest := ["d1", "/m1"] } : PushItem).dest ≠ []
    ∧ ∃ item ∈ [modItemC], item.typ = ItemType.modulemd
        ∧ ({ modItemC with dest := ["d1", "/m1"] } : PushItem)
            = { item with
                dest := item.dest
                  ++ agetL (build_ftp_tables ftpModRaw.ftp_paths).2.1 item.build } :=
  ftp_paths_modulemd_retained [modItemC] ftpModRaw
    [{ modItemC with dest := ["d1", "/m1"] }] (by decide)
    { modItemC with dest := ["d1", "/m1"] } (by decide) (by decide)

/-! ## C5: the "need but not have" dichotomy of the alternate-path merge -/

/-- The `builds_have_modules` component of the merge loop on a cons: the
head contributes its build exactly when it is a modulemd source with a
non-empty matched path list. -/
theorem add_ftp_paths_loop_snd_cons (rtp btm : List (String × List String))
    (hd : PushItem) (rest : List PushItem) :
    (add_ftp_paths_loop rtp btm (hd :: rest)).2
      = if hd.typ = ItemType.modulemd ∧ agetL btm hd.build ≠ []
        then sadd (add_ftp_paths_loop rtp btm rest).2 hd.build
        else (add_ftp_paths_loop rtp btm rest).2 := by
  simp only [add_ftp_paths_loop]
  split_ifs <;> first | rfl | simp_all

/-- Membership in the `builds_have_modules` set computed by the merge
loop coincides with `moduleMatched`. -/
theorem add_ftp_paths_loop_have_mem (rtp btm : List (String × List String)) :
    ∀ (items : List PushItem) (b : String),
      b ∈ (add_ftp_paths_loop rtp btm items).2
        ↔ moduleMatched items btm b = true := by
  intro items
  induction items with
  | nil =>
    intro b
    simp [add_ftp_paths_loop, moduleMatched]
  | cons hd rest ih =>
    intro b
    have hcons : moduleMatched (hd :: rest) btm b
        = ((hd.typ == ItemType.modulemd && hd.build == b
            && !(agetL btm b).isEmpty) || moduleMatched rest btm b) := rfl
    rw [hcons, Bool.or_eq_true, ← ih b, add_ftp_paths_loop_snd_cons]
    by_cases h2 : hd.typ = ItemType.modulemd
    · by_cases h3 : agetL btm hd.build ≠ []
      · rw [if_pos ⟨h2, h3⟩, mem_sadd]
        by_cases hb : hd.build = b
        · subst hb
          have hne : (agetL btm hd.build).isEmpty = false := by
            simpa [List.isEmpty_iff] using h3
          simp [Bool.and_eq_true, beq_iff_eq, h2, hne]
        · simp [Bool.and_eq_true, beq_iff_eq, hb, Ne.symm hb]
      · have h3' : agetL btm hd.build = [] := not_not.mp h3
        rw [if_neg (fun hc => h3 hc.2)]
        by_cases hb : hd.build = b
        · subst hb
          have hne : (agetL btm hd.build).isEmpty = true := by
            simp [List.isEmpty_iff, h3']
          simp [Bool.and_eq_true, beq_iff_eq, hne]
        · simp [Bool.and_eq_true, beq_iff_eq, hb]
    · rw [if_neg (fun hc => h2 hc.1)]
      simp [Bool.and_eq_true, beq_iff_eq, h2]

/-- Membership in the `builds_need_modules` component of the table fold,
for an arbitrary accumulator. -/
theorem build_ftp_tables_need_mem_go (fp : List (String × FtpBuildMap)) :
    ∀ (acc : List (String × List String) × List (String × List String) × List String)
      (b : String),
      b ∈ (fp.foldl ftp_tables_step acc).2.2
        ↔ b ∈ acc.2.2 ∨ ∃ p ∈ fp, p.1 = b ∧ p.2.modules ≠ [] := by
  induction fp with
  | nil =>
    intro acc b
    simp
  | cons p fp ih =>
    intro acc b
    rw [List.foldl_cons, ih]
    simp only [List.exists_mem_cons_iff]
    by_cases hp : p.2.modules ≠ []
    · have : (ftp_tables_step acc p).2.2 = sadd acc.2.2 p.1 := by
        simp [ftp_tables_step, hp]
      rw [this, mem_sadd]
      constructor
      · rintro ((hb | rfl) | hrest)
        · exact Or.inl hb
        · exact Or.inr (Or.inl ⟨rfl, hp⟩)
        · exact Or.inr (Or.inr hrest)
      · rintro (hb | (⟨rfl, -⟩ | hrest))
        · exact Or.inl (Or.inl hb)
        · exact Or.inl (Or.inr rfl)
        · exact Or.inr hrest
    · have : (ftp_tables_step acc p).2.2 = acc.2.2 := by
        simp [ftp_tables_step, hp]
      rw [this]
      constructor
      · rintro (hb | hrest)
        · exact Or.inl hb
        · exact Or.inr (Or.inr hrest)
      · rintro (hb | (⟨rfl, hmod⟩ | hrest))
        · exact Or.inl hb
        · exact absurd hmod hp
        · exact Or.inr hrest

/-- A build is in `builds_need_modules` iff some `ftp_paths` entry for it
declares a non-empty module path list. -/
theorem build_ftp_tables_need_mem (fp : List (String × FtpBuildMap)) (b : String) :
    b ∈ (build_ftp_tables fp).2.2 ↔ ∃ p ∈ fp, p.1 = b ∧ p.2.modules ≠ [] := by
  rw [build_ftp_tables, build_ftp_tables_need_mem_go]
  simp

/-- Membership in the fatal `builds_missing_koji` list: the build needs
modules per `ftp_paths`, its module source was never matched, and the cdn
manifest declares modules for it. -/
theorem builds_missing_koji_mem (items : List PushItem)
    (raw : RawAdvisoryPayload) (b : String) :
    b ∈ builds_missing_koji items raw
      ↔ ((∃ p ∈ raw.ftp_paths, p.1 = b ∧ p.2.modules ≠ [])
          ∧ moduleMatched items (build_ftp_tables raw.ftp_paths).2.1 b = false
          ∧ manifest_declares_modules raw b = true) := by
  unfold builds_missing_koji builds_missing_modules
  rw [List.mem_filter, mem_ssorted_iff, List.mem_filter]
  rw [build_ftp_tables_need_mem]
  simp only [decide_eq_true_eq, ← add_ftp_paths_loop_have_mem
    (build_ftp_tables raw.ftp_paths).1 (build_ftp_tables raw.ftp_paths).2.1 items b]
  constructor
  · rintro ⟨⟨hneed, hnotin⟩, hman⟩
    refine ⟨hneed, ?_, hman⟩
    rw [← Bool.not_eq_true, ← add_ftp_paths_loop_have_mem]
    exact hnotin
  · rintro ⟨hneed, hnm, hman⟩
    refine ⟨⟨hneed, ?_⟩, hman⟩
    rw [add_ftp_paths_loop_have_mem, hnm]
    simp

/-- Claim C5: in the alternate-path merge, for every build that declares
modules in the `ftp_paths` manifest but whose module source was never
matched: if the cdn file list declares no modules for that build the
merge still succeeds (the disagreement is only warned about); if the cdn
file list does declare modules for it, the merge fails with the
missing-modulemd-sources (`MissingArtifact`) error whose build list
contains the build and consists exactly of the needed, unmatched,
manifest-declared builds. -/
theorem ftp_paths_need_not_have_dichotomy (items : List PushItem)
    (raw : RawAdvisoryPayload) :
    ((∀ b, (∃ p ∈ raw.ftp_paths, p.1 = b ∧ p.2.modules ≠ []) →
        moduleMatched items (build_ftp_tables raw.ftp_paths).2.1 b = false →
        manifest_declares_modules raw b = false) →
      ∃ outItems, add_ftp_paths items raw = .ok outItems)
    ∧ (∀ b, (∃ p ∈ raw.ftp_paths, p.1 = b ∧ p.2.modules ≠ []) →
        moduleMatched items (build_ftp_tables raw.ftp_paths).2.1 b = false →
        manifest_declares_modules raw b = true →
        ∃ builds,
          add_ftp_paths items raw = .error (.missingModulemdSources builds)
          ∧ b ∈ builds
          ∧ ∀ b', b' ∈ builds ↔
              ((∃ p ∈ raw.ftp_paths, p.1 = b' ∧ p.2.modules ≠ [])
                ∧ moduleMatched items (build_ftp_tables raw.ftp_paths).2.1 b' = false
                ∧ manifest_declares_modules raw b' = true)) := by
  constructor
  · intro hall
    have hnil : builds_missing_koji items raw = [] := by
      by_contra hne
      obtain ⟨b, hb⟩ := List.exists_mem_of_ne_nil _ hne
      obtain ⟨h1, h2, h3⟩ := (builds_missing_koji_mem items raw b).mp hb
      rw [hall b h1 h2] at h3
      cases h3
    refine ⟨(add_ftp_paths_loop (build_ftp_tables raw.ftp_paths).1
      (build_ftp_tables raw.ftp_paths).2.1 items).1, ?_⟩
    unfold add_ftp_paths
    rw [if_neg (by simp [hnil])]
  · intro b h1 h2 h3
    have hb : b ∈ builds_missing_koji items raw :=
      (builds_missing_koji_mem items raw b).mpr ⟨h1, h2, h3⟩
    refine ⟨builds_missing_koji items raw, ?_, hb,
      fun b' => builds_missing_koji_mem items raw b'⟩
    unfold add_ftp_paths
    rw [if_pos (List.ne_nil_of_mem hb)]

/-- Witness for `ftp_paths_need_not_have_dichotomy`: build `b1` needs
modules per `ftp_paths`, no module item matched, and the cdn file list
declares modules for it, so the merge fails naming `b1`. -/
theorem ftp_paths_need_not_have_dichotomy_witness :
    ∃ builds,
      add_ftp_paths [] ftpKojiMissingRaw
          = .error (.missingModulemdSources builds)
        ∧ "b1" ∈ builds := by
  obtain ⟨builds, herr, hb, -⟩ :=
    (ftp_paths_need_not_have_dichotomy [] ftpKojiMissingRaw).2 "b1"
      ⟨("b1", { modules := ["/p1"] }), by decide, rfl, by decide⟩
      (by decide) (by decide)
  exact ⟨builds, herr, hb⟩

/-! ## C4: destination non-emptiness of the final output -/

/-- Container enrichment preserves the item class. -/
theorem enrich_container_typ (legacy : Bool)
    (dfl : List (String × ContainerTarget)) (item item2 : PushItem)
    (h : enrich_container_push_item legacy dfl item = .ok item2) :
    item2.typ = item.typ := by
  simp only [enrich_container_push_item] at h
  split at h
  · cases h
  · split at h
    · cases h
    · cases h
      rfl

/-- Every item accepted by the container loop is a container image or an
operator manifest (everything else is ignored). -/
theorem container_loop_types (legacy : Bool) (e : String)
    (dfl : List (String × ContainerTarget)) :
    ∀ (kitems out : List PushItem),
      container_loop legacy e dfl kitems = .ok out →
      ∀ item ∈ out,
        item.typ = ItemType.containerImage
          ∨ item.typ = ItemType.operatorManifest := by
  intro kitems
  induction kitems with
  | nil =>
    intro out h item hm
    rw [container_loop] at h
    cases h
    cases hm
  | cons hd rest ih =>
    intro out h item hm
    rw [container_loop] at h
    by_cases h1 : hd.typ = ItemType.containerImage
    · rw [if_pos h1] at h
      cases he : enrich_container_push_item legacy dfl hd with
      | error err =>
        simp only [he] at h
        cases h
      | ok hd2 =>
        simp only [he] at h
        cases hr : container_loop legacy e dfl rest with
        | error err =>
          simp only [hr] at h
          cases h
        | ok out2 =>
          simp only [hr] at h
          cases h
          rcases List.mem_cons.mp hm with rfl | hm2
          · exact Or.inl ((enrich_container_typ legacy dfl hd hd2 he).trans h1)
          · exact ih out2 hr item hm2
    · rw [if_neg h1] at h
      by_cases h2 : hd.typ = ItemType.operatorManifest
      · rw [if_pos h2] at h
        cases hr : container_loop legacy e dfl rest with
        | error err =>
          simp only [hr] at h
          cases h
        | ok out2 =>
          simp only [hr] at h
          cases h
          rcases List.mem_cons.mp hm with rfl | hm2
          · exact Or.inr h2
          · exact ih out2 hr item hm2
      · rw [if_neg h2] at h
        exact ih out h item hm

/-- When the merge succeeds, every modulemd-source item it returns has
non-empty destinations. -/
theorem add_ftp_paths_ok_modulemd_dest (items : List PushItem)
    (raw : RawAdvisoryPayload) (out : List PushItem)
    (hok : add_ftp_paths items raw = .ok out)
    (item : PushItem) (hm : item ∈ out) (ht : item.typ = ItemType.modulemd) :
    item.dest ≠ [] := by
  unfold add_ftp_paths at hok
  split at hok
  · cases hok
  · cases hok
    exact (add_ftp_paths_loop_modulemd _ _ items item hm ht).1

/-- Claim C4, counterexample: an advisory declaring one RPM with an empty
destination list produces a final output containing an RPM push item with
an empty destination set, although it is neither a container build with
no repositories (fatal) nor a dropped module source — so the claimed
invariant has more exceptions than the two stated. -/
theorem empty_dest_rpm_in_output :
    push_items_from_raw { archstr := id }
        { rpm := fun _ _ => [{ typ := ItemType.rpm, name := "a.b.rpm",
                               build := "b1", state := "OK" }] }
        { typ := ItemType.erratum, name := "RHSA-1" }
        { advisory_cdn_file_list := [("b1", { rpms := [("a.b.rpm", [])] })] }
      = .ok [{ typ := ItemType.erratum, name := "RHSA-1" },
             { typ := ItemType.rpm, name := "a.b.rpm", build := "b1",
               state := "OK", dest := [], origin := "RHSA-1" }]
    ∧ ({ typ := ItemType.rpm, name := "a.b.rpm", build := "b1",
         state := "OK", dest := [], origin := "RHSA-1" } : PushItem).typ
        = ItemType.rpm
    ∧ ({ typ := ItemType.rpm, name := "a.b.rpm", build := "b1",
         state := "OK", dest := [], origin := "RHSA-1" } : PushItem).dest
        = [] := by decide

/-- Claim C4 (amended): in the final output of one advisory, every
modulemd-source push item has a non-empty destination set (module sources
with no destination are silently dropped by the merge, and container
builds with no declared repository abort the advisory); RPM,
operator-manifest and advisory items, however, may carry empty
destination sets when no destinations are declared for them. -/
theorem output_modulemd_dest_nonempty (cfg : Config) (koji : Koji)
    (erratum0 : PushItem) (raw : RawAdvisoryPayload) (out : List PushItem)
    (herr : erratum0.typ = ItemType.erratum)
    (hok : push_items_from_raw cfg koji erratum0 raw = .ok out) :
    ∀ item ∈ out, item.typ = ItemType.modulemd → item.dest ≠ [] := by
  intro item hm ht
  unfold push_items_from_raw at hok
  cases h1 : push_items_from_rpms cfg.archstr cfg.rpm_filter_arch koji.rpm
      koji.moduleSrc erratum0.name raw.advisory_cdn_file_list with
  | error e =>
    simp only [h1] at hok
    cases hok
  | ok items0 =>
    simp only [h1] at hok
    cases h2 : add_ftp_paths items0 raw with
    | error e =>
      simp only [h2] at hok
      cases hok
    | ok items1 =>
      simp only [h2] at hok
      cases h3 : (push_items_from_container_manifests cfg.legacy_container_repos
          koji.container (aggregated_erratum erratum0 items0).name
          raw.advisory_cdn_docker_file_list).1 with
      | error e =>
        simp only [h3] at hok
        cases hok
      | ok citems =>
        simp only [h3] at hok
        cases hok
        rcases List.mem_cons.mp hm with rfl | hm1
        · have htyp : (aggregated_erratum erratum0 items0).typ = ItemType.erratum := by
            rw [← herr]
            rfl
          rw [htyp] at ht
          cases ht
        · rcases List.mem_append.mp hm1 with hm2 | hm3
          · exact add_ftp_paths_ok_modulemd_dest items0 raw items1 h2 item hm2 ht
          · have htypes : item.typ = ItemType.containerImage
                ∨ item.typ = ItemType.operatorManifest := by
              by_cases hdfl : raw.advisory_cdn_docker_file_list = []
              · rw [push_items_from_container_manifests, if_pos hdfl] at h3
                cases h3
                cases hm3
              · rw [push_items_from_container_manifests, if_neg hdfl] at h3
                exact container_loop_types _ _ _ _ citems h3 item hm3
            rw [ht] at htypes
            rcases htypes with hx | hx <;> cases hx

/-- Witness for `output_modulemd_dest_nonempty`: the modulemd source that
survives the pipeline keeps its declared destination. -/
theorem output_modulemd_dest_nonempty_witness : c4OutMod.dest ≠ [] :=
  output_modulemd_dest_nonempty { archstr := id } c4Koji c4Erratum c4Raw
    [{ c4Erratum with dest := ["d1"] }, c4OutMod] (by decide) (by decide)
    c4OutMod (by decide) (by decide)

end ErrataSpec
